import Mathlib

/-!
Shallow embedding of the voice pipeline implemented in
`src/voice-chatbot/src/Component/voiceConnection.jsx` (the component the
application root mounts) together with, where the claims cite it, the helpers
of `src/voice-chatbot/src/Component/testVoice.jsx`.

Modelling conventions:
* JS numbers carried by audio samples are modelled as rationals (`ℚ`);
  `Date.now()` timestamps and sample rates are naturals.
* An `Int16Array` element store is modelled by truncation toward zero
  (`truncQ`, JS `ToIntegerOrInfinity`) followed by wrap-around modulo `2^16`
  reinterpreted as a signed value (`toInt16`).
* `computeRMS` takes a square root only to compare the result against the
  positive constant `RMS_THRESHOLD`; since the square root is monotone, the
  voiced test `sqrt (sum / n) > c` is embedded as `sum / n > c * c`
  (`isVoiced`).  For a zero-length frame JS computes `sqrt(0/0) = NaN`, and
  `NaN > c` is `false`; the rational convention `0 / 0 = 0` yields the same
  `false` verdict, so the embedding agrees with the source on empty frames.
* The `socket.emit("voice_chunk", ...)` calls are logged in order in the
  `emitted` field of the state; releasing the microphone stream and closing
  the audio context are modelled by the `deviceHeld` flag.
-/

namespace VoiceBot

/-- Tunable `SILENCE_MS = 800` (voiceConnection.jsx line 23). -/
def SILENCE_MS : ℕ := 800

/-- Tunable `RMS_THRESHOLD = 0.01` (voiceConnection.jsx line 24). -/
def RMS_THRESHOLD : ℚ := 1 / 100

/-- Tunable `TARGET_SAMPLE_RATE = 16000` (voiceConnection.jsx line 26). -/
def TARGET_SAMPLE_RATE : ℕ := 16000

/-- The sum-of-squares loop of `computeRMS` (voiceConnection.jsx line 128). -/
def sumSquares (buf : List ℚ) : ℚ := buf.foldl (fun s x => s + x * x) 0

/-- The square of `computeRMS buf = Math.sqrt(sum / buf.length)`
(voiceConnection.jsx lines 126-130).  For `buf = []` the source divides by
zero, producing `NaN`; here the rational convention gives `0`. -/
def computeRMSsq (buf : List ℚ) : ℚ := sumSquares buf / (buf.length : ℚ)

/-- The voiced test `computeRMS(inBuf) > RMS_THRESHOLD` (voiceConnection.jsx
line 80), stated on squares because the square root is monotone; `NaN > c`
in the source and `0 > c*c` here are both `false` for the empty frame. -/
def isVoiced (buf : List ℚ) : Bool :=
  decide (RMS_THRESHOLD * RMS_THRESHOLD < computeRMSsq buf)

/-- `downsampleFloat` (voiceConnection.jsx lines 133-155).  The inner loop
`for (j = start; j < end && j < buffer.length; j++)` is the filtered index
list `js`; the fallback `buffer[start] || 0` is `buffer.getD first 0`, which
returns `0` exactly when `buffer[start]` is out of bounds (`undefined || 0`)
or itself `0` (`0 || 0`). -/
def downsampleFloat (buffer : List ℚ) (srcRate outRate : ℕ) : List ℚ :=
  if outRate = srcRate then buffer
  else
    let ratioQ : ℚ := (srcRate : ℚ) / (outRate : ℚ)
    let outLength : ℕ := (⌊(buffer.length : ℚ) / ratioQ⌋).toNat
    (List.range outLength).map fun (i : ℕ) =>
      let first : ℕ := (⌊(i : ℚ) * ratioQ⌋).toNat
      let stop : ℕ := (⌊((i : ℚ) + 1) * ratioQ⌋).toNat
      let js : List ℕ :=
        (List.range' first (stop - first)).filter fun j => decide (j < buffer.length)
      if 0 < js.length then
        (js.foldl (fun s j => s + buffer.getD j 0) 0) / (js.length : ℚ)
      else buffer.getD first 0

/-- Truncation toward zero of a finite JS number, the integer conversion an
`Int16Array` store performs before wrapping. -/
def truncQ (q : ℚ) : ℤ := if 0 ≤ q then ⌊q⌋ else -⌊-q⌋

/-- Wrap-around modulo `2^16` of an `Int16Array` element store, reinterpreted
as a signed 16-bit value. -/
def toInt16 (n : ℤ) : ℤ := (n + 32768) % 65536 - 32768

/-- The clamp `Math.max(-1, Math.min(1, x))` (voiceConnection.jsx line 160). -/
def clampJS (x : ℚ) : ℚ := max (-1) (min 1 x)

/-- Scalar body of `floatToPCM16` (voiceConnection.jsx lines 157-164):
`s < 0 ? s * 0x8000 : s * 0x7fff` stored into an `Int16Array` element. -/
def floatToPCM16one (x : ℚ) : ℤ :=
  let s := clampJS x
  if s < 0 then toInt16 (truncQ (s * 32768)) else toInt16 (truncQ (s * 32767))

/-- `floatToPCM16` (voiceConnection.jsx lines 157-164). -/
def floatToPCM16 (float32 : List ℚ) : List ℤ := float32.map floatToPCM16one

/-- `out.set(c, off)`: overwrite `out[off .. off + c.length)` with `c`. -/
def setAt (out c : List ℤ) (off : ℕ) : List ℤ :=
  out.take off ++ c ++ out.drop (off + c.length)

/-- `mergeInt16` (voiceConnection.jsx lines 166-175): allocate
`Int16Array(total)` (all zeroes) and copy each chunk at its running offset. -/
def mergeInt16 (chunks : List (List ℤ)) : List ℤ :=
  let total := chunks.foldl (fun s c => s + c.length) 0
  (chunks.foldl (fun p c => (setAt p.1 c p.2, p.2 + c.length))
    (List.replicate total 0, 0)).1

/-- The mutable refs of the component (voiceConnection.jsx lines 10-20):
`isRecording`, the acquired device/processor handles (`deviceHeld`),
`bufferRef`, `silenceStartRef`, `speakingRef`, plus the ordered log `emitted`
of `socket.emit("voice_chunk", ...)` payloads. -/
structure PipelineState where
  recording : Bool
  deviceHeld : Bool
  buffer : List (List ℤ)
  silenceStart : Option ℕ
  speaking : Bool
  emitted : List (List ℤ)
deriving DecidableEq

/-- State on mount: not recording, empty chunk buffer, no silence timer. -/
def initialState : PipelineState := ⟨false, false, [], none, false, []⟩

/-- `processor.onaudioprocess` (voiceConnection.jsx lines 67-99).
`silenceStartRef.current` is falsy exactly when it is `none` here
(`Date.now()` never returns `0`), and `Date.now() - silenceStartRef.current >
SILENCE_MS` is `SILENCE_MS < now - t0`. -/
def processFrame (srcRate : ℕ) (s : PipelineState) (inBuf : List ℚ) (now : ℕ) :
    PipelineState :=
  let pcm16 := floatToPCM16 (downsampleFloat inBuf srcRate TARGET_SAMPLE_RATE)
  if isVoiced inBuf then
    ⟨s.recording, s.deviceHeld, s.buffer ++ [pcm16], none, true, s.emitted⟩
  else if s.speaking then
    match s.silenceStart with
    | none => ⟨s.recording, s.deviceHeld, s.buffer, some now, s.speaking, s.emitted⟩
    | some t0 =>
      if SILENCE_MS < now - t0 then
        ⟨s.recording, s.deviceHeld, [], none, false,
          s.emitted ++ [mergeInt16 s.buffer]⟩
      else s
  else s

/-- `startRecording` (voiceConnection.jsx lines 57-105): the guard on line 58
plus the effect on the modelled state (device acquired, processor hooked up).
It does not touch `bufferRef`, `silenceStartRef` or `speakingRef`. -/
def startRecording (s : PipelineState) : PipelineState :=
  if s.recording then s
  else ⟨true, true, s.buffer, s.silenceStart, s.speaking, s.emitted⟩

/-- `stopRecording` (voiceConnection.jsx lines 107-122): the guard on line
108, disconnect/close/track-stop (release of the device handle), then the
resets of lines 118-121.  Nothing is emitted. -/
def stopRecording (s : PipelineState) : PipelineState :=
  if !s.recording then s
  else ⟨false, false, [], none, false, s.emitted⟩

/-- One externally triggered callback of the recording pipeline. -/
inductive Event where
  | frame (inBuf : List ℚ) (now : ℕ)
  | startRec
  | stopRec

/-- Dispatch one callback. -/
def step (srcRate : ℕ) (s : PipelineState) : Event → PipelineState
  | Event.frame inBuf now => processFrame srcRate s inBuf now
  | Event.startRec => startRecording s
  | Event.stopRec => stopRecording s

/-- State reached from mount after a sequence of callbacks. -/
def run (srcRate : ℕ) (events : List Event) : PipelineState :=
  events.foldl (step srcRate) initialState

/-- Hypothesis on one callback: a voiced frame is long enough for the
resampler to keep at least one sample, `srcRate ≤ length * TARGET_SAMPLE_RATE`.
The capture device always satisfies this: `createScriptProcessor(4096, 1, 1)`
(voiceConnection.jsx line 66) delivers 4096-sample frames, so the bound holds
for every source rate up to `4096 * 16000`. -/
def frameOk (srcRate : ℕ) : Event → Prop
  | Event.frame inBuf _ =>
      isVoiced inBuf = true → srcRate ≤ inBuf.length * TARGET_SAMPLE_RATE
  | _ => True

namespace TestVoice

/-- Per-sample conversion inside the `mergeInt16` of testVoice.jsx (line 157):
`Math.max(-1, Math.min(1, chunk[i])) * 0x7fff` stored into an `Int16Array`. -/
def encodeSample (x : ℚ) : ℤ := toInt16 (truncQ (clampJS x * 32767))

/-- `mergeInt16` of testVoice.jsx (lines 149-164): total length from the raw
float chunks, then each chunk is converted and copied at its running offset. -/
def mergeInt16 (chunks : List (List ℚ)) : List ℤ :=
  let totalLength := chunks.foldl (fun sum arr => sum + arr.length) 0
  (chunks.foldl
    (fun p chunk =>
      let int16 := chunk.map encodeSample
      (setAt p.1 int16 p.2, p.2 + int16.length))
    (List.replicate totalLength 0, 0)).1

end TestVoice

/-- Lifecycle of one `new Audio(...)` element created by the `bot_reply`
handler (voiceConnection.jsx lines 36-42). -/
inductive SessState where
  | Playing
  | Ended
deriving DecidableEq

/-- Pipeline state together with every audio element the `bot_reply` handler
has created, in creation order. -/
structure BotState where
  pipe : PipelineState
  sessions : List SessState
deriving DecidableEq

/-- Externally triggered callbacks of the whole component: capture frames,
the two buttons, a `bot_reply` message (`withSound` records whether the
message carried `bot_audio`, voiceConnection.jsx line 36), and the `i`-th
audio element finishing playback on its own. -/
inductive BotEvent where
  | frame (inBuf : List ℚ) (now : ℕ)
  | startRec
  | stopRec
  | botReply (withSound : Bool)
  | audioEnded (i : ℕ)

/-- Effect of one callback on the whole component.  The `bot_reply` handler
(voiceConnection.jsx lines 30-43) plays the reply audio fire-and-forget and
never touches an earlier element; nothing in `processor.onaudioprocess`
(lines 67-99), `startRecording` or `stopRecording` reads or writes any audio
element, and nothing in the component ever stops one. -/
def botStep (srcRate : ℕ) (s : BotState) : BotEvent → BotState
  | BotEvent.frame inBuf now => ⟨processFrame srcRate s.pipe inBuf now, s.sessions⟩
  | BotEvent.startRec => ⟨startRecording s.pipe, s.sessions⟩
  | BotEvent.stopRec => ⟨stopRecording s.pipe, s.sessions⟩
  | BotEvent.botReply withSound =>
      if withSound then ⟨s.pipe, s.sessions ++ [SessState.Playing]⟩ else s
  | BotEvent.audioEnded i => ⟨s.pipe, s.sessions.set i SessState.Ended⟩

/-- State of the whole component reached from mount. -/
def botRun (srcRate : ℕ) (events : List BotEvent) : BotState :=
  events.foldl (botStep srcRate) ⟨initialState, []⟩

/-- Does this event model an audio element finishing on its own? -/
def isAudioEnded : BotEvent → Bool
  | BotEvent.audioEnded _ => true
  | _ => false

/-! ### Basic facts about the energy detector -/

lemma isVoiced_nil : isVoiced [] = false := by
  simp [isVoiced, computeRMSsq, sumSquares, RMS_THRESHOLD]

lemma isVoiced_zero : isVoiced [(0 : ℚ)] = false := by
  simp [isVoiced, computeRMSsq, sumSquares, RMS_THRESHOLD]

lemma isVoiced_one : isVoiced [(1 : ℚ)] = true := by
  simp [isVoiced, computeRMSsq, sumSquares, RMS_THRESHOLD]
  norm_num

/-! ### Basic facts about the resampler -/

lemma downsampleFloat_self (buffer : List ℚ) (rate : ℕ) :
    downsampleFloat buffer rate rate = buffer := by
  simp [downsampleFloat]

/-! ### The encoder -/

lemma clampJS_le_one (x : ℚ) : clampJS x ≤ 1 := by
  unfold clampJS
  exact max_le (by norm_num) (min_le_left _ _)

lemma neg_one_le_clampJS (x : ℚ) : -1 ≤ clampJS x := le_max_left _ _

lemma clampJS_eq_min_max (x : ℚ) : clampJS x = min 1 (max (-1) x) := by
  unfold clampJS
  simp only [min_def, max_def]
  split_ifs <;> linarith

lemma toInt16_eq_self {n : ℤ} (h1 : -32768 ≤ n) (h2 : n ≤ 32767) :
    toInt16 n = n := by
  unfold toInt16
  rw [Int.emod_eq_of_lt (by linarith) (by linarith)]
  ring

lemma truncQ_nonneg_bounds {q : ℚ} (h0 : 0 ≤ q) (h1 : q ≤ 32767) :
    0 ≤ truncQ q ∧ truncQ q ≤ 32767 := by
  unfold truncQ
  rw [if_pos h0]
  constructor
  · exact Int.floor_nonneg.mpr h0
  · calc ⌊q⌋ ≤ ⌊(32767 : ℚ)⌋ := Int.floor_le_floor h1
      _ = 32767 := by norm_num

lemma truncQ_neg_bounds {q : ℚ} (h0 : q < 0) (h1 : -32768 ≤ q) :
    -32768 ≤ truncQ q ∧ truncQ q ≤ 0 := by
  unfold truncQ
  rw [if_neg (not_le.mpr h0)]
  constructor
  · have : ⌊-q⌋ ≤ 32768 := by
      calc ⌊-q⌋ ≤ ⌊(32768 : ℚ)⌋ := Int.floor_le_floor (by linarith)
        _ = 32768 := by norm_num
    omega
  · have : 0 ≤ ⌊-q⌋ := Int.floor_nonneg.mpr (by linarith)
    omega

/-- The Encoder contract in the words of the spec (§4.4): clamp each sample
to `[-1, 1]`, then multiply negative values by `32768` and non-negative ones
by `32767` — written independently of `floatToPCM16one`, with no wrap-around,
for the comparison proved in `floatToPCM16_eq_encoderSpec`. -/
def encoderSpec (x : ℚ) : ℤ :=
  let s := min 1 (max (-1) x)
  if s < 0 then truncQ (s * 32768) else truncQ (s * 32767)

lemma floatToPCM16_eq_encoderSpec (x : ℚ) :
    floatToPCM16one x = encoderSpec x := by
  unfold floatToPCM16one encoderSpec
  rw [← clampJS_eq_min_max]
  have hlo := neg_one_le_clampJS x
  have hhi := clampJS_le_one x
  by_cases hneg : clampJS x < 0
  · rw [if_pos hneg, if_pos hneg]
    have hq0 : clampJS x * 32768 < 0 := mul_neg_of_neg_of_pos hneg (by norm_num)
    have hq1 : -32768 ≤ clampJS x * 32768 := by nlinarith
    obtain ⟨b1, b2⟩ := truncQ_neg_bounds hq0 hq1
    exact toInt16_eq_self (by omega) (by omega)
  · rw [if_neg hneg, if_neg hneg]
    have h0 : 0 ≤ clampJS x := not_lt.mp hneg
    have hq1 : clampJS x * 32767 ≤ 32767 := by nlinarith
    obtain ⟨b1, b2⟩ := truncQ_nonneg_bounds (by positivity) hq1
    exact toInt16_eq_self (by omega) b2

lemma floatToPCM16one_one : floatToPCM16one 1 = 32767 := by
  norm_num [floatToPCM16one, clampJS, truncQ, toInt16]

lemma floatToPCM16one_neg_one : floatToPCM16one (-1) = -32768 := by
  norm_num [floatToPCM16one, clampJS, truncQ, toInt16]

lemma floatToPCM16one_zero : floatToPCM16one 0 = 0 := by
  norm_num [floatToPCM16one, clampJS, truncQ, toInt16]

lemma clampJS_of_one_le {x : ℚ} (h : 1 ≤ x) : clampJS x = 1 := by
  unfold clampJS
  rw [min_eq_left h, max_eq_right (by norm_num : (-1 : ℚ) ≤ 1)]

lemma clampJS_of_le_neg_one {x : ℚ} (h : x ≤ -1) : clampJS x = -1 := by
  unfold clampJS
  rw [min_eq_right (by linarith : x ≤ 1), max_eq_left h]

lemma floatToPCM16one_of_one_le {x : ℚ} (h : 1 ≤ x) :
    floatToPCM16one x = 32767 := by
  have h1 : clampJS x = clampJS 1 := by
    rw [clampJS_of_one_le h, clampJS_of_one_le le_rfl]
  have : floatToPCM16one x = floatToPCM16one 1 := by
    unfold floatToPCM16one
    rw [h1]
  rw [this, floatToPCM16one_one]

lemma floatToPCM16one_of_le_neg_one {x : ℚ} (h : x ≤ -1) :
    floatToPCM16one x = -32768 := by
  have h1 : clampJS x = clampJS (-1) := by
    rw [clampJS_of_le_neg_one h, clampJS_of_le_neg_one le_rfl]
  have : floatToPCM16one x = floatToPCM16one (-1) := by
    unfold floatToPCM16one
    rw [h1]
  rw [this, floatToPCM16one_neg_one]

/-! ### The merge operation -/

lemma foldl_add_length {α : Type} (l : List (List α)) (n : ℕ) :
    l.foldl (fun s c => s + c.length) n = n + (l.map List.length).sum := by
  induction l generalizing n with
  | nil => simp
  | cons c t ih =>
    simp only [List.foldl_cons, List.map_cons, List.sum_cons, ih]
    omega

lemma setAt_filled (done c : List ℤ) (tail : ℕ) :
    setAt (done ++ List.replicate (c.length + tail) 0) c done.length
      = (done ++ c) ++ List.replicate tail 0 := by
  unfold setAt
  rw [List.take_left, List.replicate_add, ← List.append_assoc,
    List.drop_append_eq_append_drop]
  have h1 : (done ++ List.replicate c.length (0 : ℤ)).length
      = done.length + c.length := by simp
  rw [List.drop_eq_nil_of_le (by omega), h1, Nat.sub_self, List.drop_zero]
  simp

lemma merge_loop (rest : List (List ℤ)) (done : List ℤ) :
    (rest.foldl (fun p c => (setAt p.1 c p.2, p.2 + c.length))
      (done ++ List.replicate ((rest.map List.length).sum) 0, done.length)).1
      = done ++ rest.flatten := by
  induction rest generalizing done with
  | nil => simp
  | cons c t ih =>
    simp only [List.foldl_cons, List.map_cons, List.sum_cons]
    rw [setAt_filled]
    have hlen : done.length + c.length = (done ++ c).length := by simp
    rw [hlen]
    rw [ih (done ++ c)]
    simp

lemma mergeInt16_eq_join (chunks : List (List ℤ)) :
    mergeInt16 chunks = chunks.flatten := by
  unfold mergeInt16
  rw [foldl_add_length]
  have := merge_loop chunks []
  simpa using this

lemma mergeInt16_length (chunks : List (List ℤ)) :
    (mergeInt16 chunks).length = (chunks.map List.length).sum := by
  rw [mergeInt16_eq_join, List.length_flatten]

lemma testVoice_mergeInt16_eq (chunks : List (List ℚ)) :
    TestVoice.mergeInt16 chunks
      = mergeInt16 (chunks.map (fun c => c.map TestVoice.encodeSample)) := by
  unfold TestVoice.mergeInt16 mergeInt16
  simp only [List.foldl_map, List.length_map]

lemma testVoice_mergeInt16_eq_join (chunks : List (List ℚ)) :
    TestVoice.mergeInt16 chunks
      = (chunks.map (fun c => c.map TestVoice.encodeSample)).flatten := by
  rw [testVoice_mergeInt16_eq, mergeInt16_eq_join]

lemma testVoice_mergeInt16_length (chunks : List (List ℚ)) :
    (TestVoice.mergeInt16 chunks).length = (chunks.map List.length).sum := by
  rw [testVoice_mergeInt16_eq, mergeInt16_length, List.map_map]
  congr 1
  exact List.map_congr_left fun c _ => by simp

/-! ### Branch lemmas for the frame callback -/

lemma processFrame_voiced {inBuf : List ℚ} (srcRate : ℕ) (s : PipelineState)
    (now : ℕ) (hv : isVoiced inBuf = true) :
    processFrame srcRate s inBuf now =
      ⟨s.recording, s.deviceHeld,
        s.buffer ++ [floatToPCM16 (downsampleFloat inBuf srcRate TARGET_SAMPLE_RATE)],
        none, true, s.emitted⟩ := by
  simp [processFrame, hv]

lemma processFrame_silent_idle {inBuf : List ℚ} (srcRate : ℕ)
    {s : PipelineState} (now : ℕ) (hv : isVoiced inBuf = false)
    (hs : s.speaking = false) :
    processFrame srcRate s inBuf now = s := by
  simp [processFrame, hv, hs]

lemma processFrame_silence_begin {inBuf : List ℚ} (srcRate : ℕ)
    {s : PipelineState} (now : ℕ) (hv : isVoiced inBuf = false)
    (hs : s.speaking = true) (ht : s.silenceStart = none) :
    processFrame srcRate s inBuf now =
      ⟨s.recording, s.deviceHeld, s.buffer, some now, s.speaking, s.emitted⟩ := by
  simp [processFrame, hv, hs, ht]

lemma processFrame_silence_wait {inBuf : List ℚ} (srcRate : ℕ)
    {s : PipelineState} {now t0 : ℕ} (hv : isVoiced inBuf = false)
    (hs : s.speaking = true) (ht : s.silenceStart = some t0)
    (he : ¬ SILENCE_MS < now - t0) :
    processFrame srcRate s inBuf now = s := by
  simp [processFrame, hv, hs, ht, he]

lemma processFrame_fire {inBuf : List ℚ} (srcRate : ℕ) {s : PipelineState}
    {now t0 : ℕ} (hv : isVoiced inBuf = false) (hs : s.speaking = true)
    (ht : s.silenceStart = some t0) (he : SILENCE_MS < now - t0) :
    processFrame srcRate s inBuf now =
      ⟨s.recording, s.deviceHeld, [], none, false,
        s.emitted ++ [mergeInt16 s.buffer]⟩ := by
  simp [processFrame, hv, hs, ht, he]

/-! ### Concrete runs used by witnesses and counterexamples -/

lemma floatToPCM16_one : floatToPCM16 [(1 : ℚ)] = [32767] := by
  simp [floatToPCM16, floatToPCM16one_one]

lemma run_voiced_then_silent :
    run 16000 [Event.frame [1] 1, Event.frame [0] 100]
      = ⟨false, false, [[32767]], some 100, true, []⟩ := by
  unfold run
  simp only [List.foldl_cons, List.foldl_nil, step]
  rw [processFrame_voiced 16000 initialState 1 isVoiced_one]
  simp only [TARGET_SAMPLE_RATE]
  rw [downsampleFloat_self, floatToPCM16_one]
  rw [processFrame_silence_begin 16000 100 isVoiced_zero rfl rfl]
  simp [initialState]

lemma run_elapsed_exactly_hangover :
    run 16000 [Event.frame [1] 1, Event.frame [0] 100, Event.frame [0] 900]
      = ⟨false, false, [[32767]], some 100, true, []⟩ := by
  have h : run 16000 [Event.frame [1] 1, Event.frame [0] 100, Event.frame [0] 900]
      = step 16000 (run 16000 [Event.frame [1] 1, Event.frame [0] 100])
          (Event.frame [0] 900) := by
    unfold run
    simp [List.foldl_cons]
  rw [h, run_voiced_then_silent]
  exact processFrame_silence_wait 16000 isVoiced_zero rfl rfl (by norm_num [SILENCE_MS])

/-! ### Claim C1 -/

/-- C1 (counterexample): with `SILENCE_MS = 800`, after a voiced frame at
`t = 1` and a first silent frame at `t = 100` (the silence timer starts at
100), a silent frame arriving at `t = 900` has elapsed silence exactly
`hangoverMillis`.  The claim says finalize-and-reset fires at
`elapsed ≥ hangoverMillis`, but the source tests
`Date.now() - silenceStart > SILENCE_MS` (strict), so nothing is emitted and
the segmenter stays in Speaking. -/
theorem hangover_boundary_no_finalize :
    900 - 100 = SILENCE_MS ∧ isVoiced [(0 : ℚ)] = false ∧
    (run 16000 [Event.frame [1] 1, Event.frame [0] 100,
      Event.frame [0] 900]).emitted = [] ∧
    (run 16000 [Event.frame [1] 1, Event.frame [0] 100,
      Event.frame [0] 900]).speaking = true := by
  refine ⟨by norm_num [SILENCE_MS], isVoiced_zero, ?_, ?_⟩ <;>
    rw [run_elapsed_exactly_hangover]

/-- C1 (amended: finalize fires only when the elapsed silence strictly
exceeds `hangoverMillis`): in Speaking with the silence timer started at
`t0`, a frame with energy at or below the threshold arriving at `now` with
`now - t0 > SILENCE_MS` makes the segmenter merge the appended chunks into
one contiguous buffer (`mergeInt16 = flatten`), emit it as the single payload
of one transport message, and reset to Idle with an empty chunk buffer and a
cleared silence timer. -/
theorem hangover_finalize (srcRate : ℕ) (s : PipelineState) (inBuf : List ℚ)
    (now t0 : ℕ) (hv : isVoiced inBuf = false) (hs : s.speaking = true)
    (ht : s.silenceStart = some t0) (he : SILENCE_MS < now - t0) :
    processFrame srcRate s inBuf now =
      ⟨s.recording, s.deviceHeld, [], none, false,
        s.emitted ++ [mergeInt16 s.buffer]⟩ ∧
    mergeInt16 s.buffer = s.buffer.flatten :=
  ⟨processFrame_fire srcRate hv hs ht he, mergeInt16_eq_join s.buffer⟩

/-- Witness for `hangover_finalize` at a concrete Speaking state with the
silence timer at 100 and a silent frame at 901 (elapsed 801 > 800). -/
theorem hangover_finalize_witness :
    processFrame 16000 (run 16000 [Event.frame [1] 1, Event.frame [0] 100])
        [0] 901 =
      ⟨(run 16000 [Event.frame [1] 1, Event.frame [0] 100]).recording,
        (run 16000 [Event.frame [1] 1, Event.frame [0] 100]).deviceHeld,
        [], none, false,
        (run 16000 [Event.frame [1] 1, Event.frame [0] 100]).emitted ++
          [mergeInt16 (run 16000 [Event.frame [1] 1,
            Event.frame [0] 100]).buffer]⟩ :=
  (hangover_finalize 16000 _ [0] 901 100 isVoiced_zero
    (by rw [run_voiced_then_silent]) (by rw [run_voiced_then_silent])
    (by norm_num [SILENCE_MS])).1

/-! ### Claim C3 -/

/-- C3 (confirmed): merging an ordered sequence of chunks yields their
concatenation in original temporal order, hence the total sample count is
the sum of the chunk lengths; this holds for the `mergeInt16` of
voiceConnection.jsx and for the converting `mergeInt16` of testVoice.jsx
(whose per-chunk conversion preserves each chunk's length). -/
theorem merge_contract (chunks : List (List ℤ)) (floatChunks : List (List ℚ)) :
    mergeInt16 chunks = chunks.flatten ∧
    (mergeInt16 chunks).length = (chunks.map List.length).sum ∧
    TestVoice.mergeInt16 floatChunks
      = (floatChunks.map (fun c => c.map TestVoice.encodeSample)).flatten ∧
    (TestVoice.mergeInt16 floatChunks).length
      = (floatChunks.map List.length).sum :=
  ⟨mergeInt16_eq_join chunks, mergeInt16_length chunks,
    testVoice_mergeInt16_eq_join floatChunks,
    testVoice_mergeInt16_length floatChunks⟩

/-! ### Claim C4 -/

/-- C4 (confirmed, for the Encoder `floatToPCM16` of voiceConnection.jsx):
every sample is clamped to `[-1, 1]` and then scaled by `32768` when
negative and by `32767` otherwise (`encoderSpec`, the spec's words); the
boundary values are `1 ↦ 32767`, `-1 ↦ -32768`, `0 ↦ 0`; and out-of-range
inputs are clamped, never rejected. -/
theorem encoder_contract :
    (∀ x : ℚ, floatToPCM16one x = encoderSpec x) ∧
    floatToPCM16one 1 = 32767 ∧ floatToPCM16one (-1) = -32768 ∧
    floatToPCM16one 0 = 0 ∧
    (∀ x : ℚ, 1 ≤ x → floatToPCM16one x = 32767) ∧
    (∀ x : ℚ, x ≤ -1 → floatToPCM16one x = -32768) :=
  ⟨floatToPCM16_eq_encoderSpec, floatToPCM16one_one, floatToPCM16one_neg_one,
    floatToPCM16one_zero, fun _ h => floatToPCM16one_of_one_le h,
    fun _ h => floatToPCM16one_of_le_neg_one h⟩

/-- Witness for `encoder_contract` at the out-of-range inputs 2 and -3. -/
theorem encoder_contract_witness :
    floatToPCM16one 2 = 32767 ∧ floatToPCM16one (-3) = -32768 :=
  ⟨encoder_contract.2.2.2.2.1 2 (by norm_num),
    encoder_contract.2.2.2.2.2 (-3) (by norm_num)⟩

/-! ### Claim C6 -/

/-- C6 (confirmed): at `outRate = srcRate` the resampler returns its input
sample-for-sample (the source returns `buffer.slice(0)`, an unmodified
copy). -/
theorem resample_identity (buffer : List ℚ) (rate : ℕ) :
    downsampleFloat buffer rate rate = buffer :=
  downsampleFloat_self buffer rate

/-! ### Claim C7 -/

/-- C7 (confirmed): `stopRecording` never emits; when recording it releases
the device handle, discards the partially accumulated segment, and resets the
segmenter to Idle with an empty buffer and a cleared silence timer; calling
it while already stopped is a no-op, and `startRecording` while already
started is a no-op. -/
theorem stop_start_contract (s : PipelineState) :
    (stopRecording s).emitted = s.emitted ∧
    (s.recording = true →
      (stopRecording s).recording = false ∧
      (stopRecording s).deviceHeld = false ∧
      (stopRecording s).buffer = [] ∧
      (stopRecording s).silenceStart = none ∧
      (stopRecording s).speaking = false) ∧
    (s.recording = false → stopRecording s = s) ∧
    (s.recording = true → startRecording s = s) := by
  obtain ⟨r, d, b, t, sp, em⟩ := s
  cases r <;> simp [stopRecording, startRecording]

/-- Witness for `stop_start_contract`: stopping mid-session after a start
clears the buffer and emits nothing, and stopping while stopped is a no-op. -/
theorem stop_start_contract_witness :
    (stopRecording (startRecording initialState)).buffer = [] ∧
    (stopRecording (startRecording initialState)).emitted = [] ∧
    stopRecording initialState = initialState := by
  refine ⟨((stop_start_contract (startRecording initialState)).2.1 rfl).2.2.1,
    ?_, (stop_start_contract initialState).2.2.1 rfl⟩
  rw [(stop_start_contract (startRecording initialState)).1]
  rfl

/-! ### Claim C10 -/

/-- C10 (confirmed): a zero-length frame divides the sum of squares by a zero
length (the rational convention gives `0`, matching the source's `NaN` in
that both fail the voiced comparison), so processing it never starts a new
segment and never appends samples, in every segmenter state. -/
theorem empty_frame_inert (srcRate : ℕ) (s : PipelineState) (now : ℕ) :
    computeRMSsq [] = 0 ∧ isVoiced [] = false ∧
    (s.speaking = false → processFrame srcRate s [] now = s) ∧
    (processFrame srcRate s [] now).buffer.length ≤ s.buffer.length ∧
    ((processFrame srcRate s [] now).speaking = true → s.speaking = true) := by
  have h0 : computeRMSsq [] = 0 := by simp [computeRMSsq, sumSquares]
  refine ⟨h0, isVoiced_nil,
    fun hs => processFrame_silent_idle srcRate now isVoiced_nil hs, ?_, ?_⟩
  · cases hs : s.speaking
    · rw [processFrame_silent_idle srcRate now isVoiced_nil hs]
    · cases ht : s.silenceStart with
      | none =>
        rw [processFrame_silence_begin srcRate now isVoiced_nil hs ht]
      | some t0 =>
        by_cases he : SILENCE_MS < now - t0
        · rw [processFrame_fire srcRate isVoiced_nil hs ht he]
          simp
        · rw [processFrame_silence_wait srcRate isVoiced_nil hs ht he]
  · cases hs : s.speaking
    · intro hcontra
      rw [processFrame_silent_idle srcRate now isVoiced_nil hs, hs] at hcontra
      exact hcontra
    · intro _
      rfl

/-- Witness for `empty_frame_inert` at the Idle initial state. -/
theorem empty_frame_inert_witness :
    processFrame 44100 initialState [] 5 = initialState ∧
    isVoiced [] = false :=
  ⟨(empty_frame_inert 44100 initialState 5).2.2.1 rfl,
    (empty_frame_inert 44100 initialState 5).2.1⟩

/-! ### Claim C9 -/

/-- Invariant: outside Speaking the chunk buffer is empty and the silence
timer is cleared. -/
def idleClean (s : PipelineState) : Prop :=
  s.speaking = false → s.buffer = [] ∧ s.silenceStart = none

lemma idleClean_step (srcRate : ℕ) (s : PipelineState) (e : Event)
    (h : idleClean s) : idleClean (step srcRate s e) := by
  cases e with
  | frame inBuf now =>
    show idleClean (processFrame srcRate s inBuf now)
    cases hv : isVoiced inBuf with
    | true =>
      rw [processFrame_voiced srcRate s now hv]
      intro h2
      simp at h2
    | false =>
      cases hs : s.speaking with
      | false =>
        rw [processFrame_silent_idle srcRate now hv hs]
        exact h
      | true =>
        cases ht : s.silenceStart with
        | none =>
          rw [processFrame_silence_begin srcRate now hv hs ht]
          intro h2
          rw [hs] at h2
          simp at h2
        | some t0 =>
          by_cases hel : SILENCE_MS < now - t0
          · rw [processFrame_fire srcRate hv hs ht hel]
            exact fun _ => ⟨rfl, rfl⟩
          · rw [processFrame_silence_wait srcRate hv hs ht hel]
            exact h
  | startRec =>
    show idleClean (startRecording s)
    unfold startRecording
    split_ifs
    · exact h
    · exact fun h2 => h h2
  | stopRec =>
    show idleClean (stopRecording s)
    unfold stopRecording
    split_ifs
    · exact h
    · exact fun _ => ⟨rfl, rfl⟩

lemma idleClean_run (srcRate : ℕ) (events : List Event) :
    idleClean (run srcRate events) := by
  have key : ∀ (l : List Event) (s : PipelineState), idleClean s →
      idleClean (l.foldl (step srcRate) s) := by
    intro l
    induction l with
    | nil => exact fun s h => h
    | cons e t ih => exact fun s h => ih _ (idleClean_step srcRate s e h)
  exact key events initialState (fun _ => ⟨rfl, rfl⟩)

/-- C9 (confirmed): in every state reachable by any sequence of frame
callbacks and start/stop calls, if the speaking flag is false then the chunk
buffer is empty and the silence-start timestamp is cleared — encoded chunks
and a running silence timer exist only in the Speaking state. -/
theorem idle_state_clean (srcRate : ℕ) (events : List Event)
    (h : (run srcRate events).speaking = false) :
    (run srcRate events).buffer = [] ∧
    (run srcRate events).silenceStart = none :=
  idleClean_run srcRate events h

/-- Witness for `idle_state_clean`: a run that stops mid-utterance ends with
the speaking flag down, an empty buffer and no timer. -/
theorem idle_state_clean_witness :
    (run 16000 [Event.startRec, Event.frame [1] 1, Event.stopRec]).buffer = []
      ∧ (run 16000 [Event.startRec, Event.frame [1] 1,
          Event.stopRec]).silenceStart = none :=
  idle_state_clean 16000 [Event.startRec, Event.frame [1] 1, Event.stopRec]
    (by
      unfold run
      simp only [List.foldl_cons, List.foldl_nil, step]
      rw [show startRecording initialState
          = ⟨true, true, [], none, false, []⟩ from rfl]
      rw [processFrame_voiced 16000 _ 1 isVoiced_one]
      rfl)

/-! ### Claim C2 -/

lemma floatToPCM16_length (l : List ℚ) :
    (floatToPCM16 l).length = l.length := by
  simp [floatToPCM16]

lemma downsample_length_pos (buf : List ℚ) (srcRate : ℕ) (hp : 0 < srcRate)
    (h : srcRate ≤ buf.length * TARGET_SAMPLE_RATE) :
    0 < (downsampleFloat buf srcRate TARGET_SAMPLE_RATE).length := by
  unfold downsampleFloat
  by_cases he : TARGET_SAMPLE_RATE = srcRate
  · rw [if_pos he]
    unfold TARGET_SAMPLE_RATE at he h
    omega
  · rw [if_neg he]
    rw [List.length_map, List.length_range]
    have hq : (0 : ℚ) < (srcRate : ℚ) / (TARGET_SAMPLE_RATE : ℚ) := by
      apply div_pos
      · exact_mod_cast hp
      · norm_num [TARGET_SAMPLE_RATE]
    have h1 : (1 : ℚ) ≤ (buf.length : ℚ) /
        ((srcRate : ℚ) / (TARGET_SAMPLE_RATE : ℚ)) := by
      rw [one_le_div hq, div_le_iff₀
        (by norm_num [TARGET_SAMPLE_RATE] : (0 : ℚ) < (TARGET_SAMPLE_RATE : ℚ))]
      exact_mod_cast h
    have h2 : (1 : ℤ) ≤ ⌊(buf.length : ℚ) /
        ((srcRate : ℚ) / (TARGET_SAMPLE_RATE : ℚ))⌋ :=
      Int.le_floor.mpr (by exact_mod_cast h1)
    omega

/-- Invariant carrying C2: every emitted payload is non-empty, and while
Speaking the accumulated chunks hold at least one sample. -/
def goodState (s : PipelineState) : Prop :=
  (∀ b ∈ s.emitted, 0 < b.length) ∧
  (s.speaking = true → 0 < s.buffer.flatten.length)

lemma goodState_step (srcRate : ℕ) (hp : 0 < srcRate) (s : PipelineState)
    (e : Event) (he : frameOk srcRate e) (h : goodState s) :
    goodState (step srcRate s e) := by
  obtain ⟨hemit, hbuf⟩ := h
  cases e with
  | frame inBuf now =>
    show goodState (processFrame srcRate s inBuf now)
    cases hv : isVoiced inBuf with
    | true =>
      rw [processFrame_voiced srcRate s now hv]
      have hl : 0 < (floatToPCM16
          (downsampleFloat inBuf srcRate TARGET_SAMPLE_RATE)).length := by
        rw [floatToPCM16_length]
        exact downsample_length_pos inBuf srcRate hp (he hv)
      refine ⟨hemit, fun _ => ?_⟩
      have h2 : 0 < (s.buffer ++ [floatToPCM16
          (downsampleFloat inBuf srcRate TARGET_SAMPLE_RATE)]).flatten.length := by
        rw [List.flatten_append]
        simp only [List.flatten_cons, List.flatten_nil, List.append_nil,
          List.length_append]
        omega
      exact h2
    | false =>
      cases hs : s.speaking with
      | false =>
        rw [processFrame_silent_idle srcRate now hv hs]
        exact ⟨hemit, hbuf⟩
      | true =>
        cases ht : s.silenceStart with
        | none =>
          rw [processFrame_silence_begin srcRate now hv hs ht]
          exact ⟨hemit, fun _ => hbuf hs⟩
        | some t0 =>
          by_cases hel : SILENCE_MS < now - t0
          · rw [processFrame_fire srcRate hv hs ht hel]
            constructor
            · intro b hb
              rw [List.mem_append] at hb
              cases hb with
              | inl h1 => exact hemit b h1
              | inr h2 =>
                rw [List.mem_singleton] at h2
                subst h2
                rw [mergeInt16_length]
                have h3 := hbuf hs
                rw [List.length_flatten] at h3
                exact h3
            · intro hfalse
              simp at hfalse
          · rw [processFrame_silence_wait srcRate hv hs ht hel]
            exact ⟨hemit, hbuf⟩
  | startRec =>
    show goodState (startRecording s)
    unfold startRecording
    split_ifs
    · exact ⟨hemit, hbuf⟩
    · exact ⟨hemit, fun hh => hbuf hh⟩
  | stopRec =>
    show goodState (stopRecording s)
    unfold stopRecording
    split_ifs
    · exact ⟨hemit, hbuf⟩
    · refine ⟨hemit, ?_⟩
      intro hfalse
      simp at hfalse

lemma goodState_run (srcRate : ℕ) (hp : 0 < srcRate) (events : List Event)
    (hok : ∀ e ∈ events, frameOk srcRate e) :
    goodState (run srcRate events) := by
  have key : ∀ (l : List Event) (s : PipelineState),
      (∀ e ∈ l, frameOk srcRate e) → goodState s →
      goodState (l.foldl (step srcRate) s) := by
    intro l
    induction l with
    | nil => exact fun s _ h => h
    | cons e t ih =>
      intro s hok2 h
      exact ih _ (fun x hx => hok2 x (List.mem_cons_of_mem e hx))
        (goodState_step srcRate hp s e (hok2 e (List.mem_cons_self e t)) h)
  refine key events initialState hok ⟨?_, ?_⟩
  · intro b hb
    simp [initialState] at hb
  · intro hf
    simp [initialState] at hf

lemma downsample_short_frame : downsampleFloat [(1 : ℚ)] 32000 16000 = [] := by
  simp only [downsampleFloat]
  rw [if_neg (by norm_num : ¬ (16000 : ℕ) = 32000)]
  have h2 : (⌊((([(1 : ℚ)].length : ℚ)) /
      (((32000 : ℕ) : ℚ) / ((16000 : ℕ) : ℚ)))⌋).toNat = 0 := by
    norm_num
  rw [h2]
  simp

lemma run_degenerate :
    run 32000 [Event.frame [1] 1, Event.frame [] 2, Event.frame [] 1000]
      = ⟨false, false, [], none, false, [[]]⟩ := by
  unfold run
  simp only [List.foldl_cons, List.foldl_nil, step]
  rw [processFrame_voiced 32000 initialState 1 isVoiced_one]
  simp only [TARGET_SAMPLE_RATE]
  rw [downsample_short_frame]
  simp only [floatToPCM16, List.map_nil, initialState, List.nil_append]
  rw [processFrame_silence_begin 32000 2 isVoiced_nil rfl rfl]
  rw [processFrame_fire 32000 isVoiced_nil rfl rfl
    (by norm_num [SILENCE_MS])]
  rw [mergeInt16_eq_join]
  simp

/-- C2 (counterexample): at source rate 32000 a voiced single-sample frame
resamples to a zero-sample chunk (`outLength = floor(1/2) = 0`), the merge of
which is a zero-length buffer; the hangover still fires and the source emits
it — `voice_chunk` carries a segment with zero samples. -/
theorem zero_length_segment_transmitted :
    ¬ ∀ b ∈ (run 32000 [Event.frame [1] 1, Event.frame [] 2,
        Event.frame [] 1000]).emitted, 0 < b.length := by
  rw [run_degenerate]
  intro h
  have h2 := h [] (by simp)
  simp at h2

/-- C2 (amended: true provided every voiced frame carries at least
`srcRate / TARGET_SAMPLE_RATE` samples, i.e. `frameOk`; the capture device's
fixed 4096-sample frames satisfy this at every realistic source rate): every
buffer handed to the transport on finalize has strictly positive sample
length, in every reachable state. -/
theorem transmitted_segments_nonempty (srcRate : ℕ) (events : List Event)
    (hp : 0 < srcRate) (hok : ∀ e ∈ events, frameOk srcRate e) :
    ∀ b ∈ (run srcRate events).emitted, 0 < b.length :=
  (goodState_run srcRate hp events hok).1

lemma run_short_utterance :
    run 16000 [Event.frame [1] 1, Event.frame [0] 2, Event.frame [0] 1000]
      = ⟨false, false, [], none, false, [[32767]]⟩ := by
  unfold run
  simp only [List.foldl_cons, List.foldl_nil, step]
  rw [processFrame_voiced 16000 initialState 1 isVoiced_one]
  simp only [TARGET_SAMPLE_RATE]
  rw [downsampleFloat_self, floatToPCM16_one]
  simp only [initialState, List.nil_append]
  rw [processFrame_silence_begin 16000 2 isVoiced_zero rfl rfl]
  rw [processFrame_fire 16000 isVoiced_zero rfl rfl
    (by norm_num [SILENCE_MS])]
  rw [mergeInt16_eq_join]
  simp

/-- Witness for `transmitted_segments_nonempty`: a well-formed run whose one
transmitted segment is non-empty. -/
theorem transmitted_segments_nonempty_witness :
    0 < ((run 16000 [Event.frame [1] 1, Event.frame [0] 2,
        Event.frame [0] 1000]).emitted.getD 0 []).length :=
  transmitted_segments_nonempty 16000
    [Event.frame [1] 1, Event.frame [0] 2, Event.frame [0] 1000]
    (by norm_num)
    (by
      intro e he
      simp only [List.mem_cons, List.not_mem_nil, or_false] at he
      rcases he with h | h | h <;> subst h <;>
        exact fun _ => by norm_num [TARGET_SAMPLE_RATE])
    _
    (by rw [run_short_utterance]; simp)

/-! ### Claim C8 -/

/-- C8 (counterexample): with a bot reply playing, a voiced frame drives the
segmenter through its Idle-to-Speaking transition, yet the playing audio
element is untouched — the source has no barge-in hookup at all. -/
theorem speech_does_not_end_playback :
    (botRun 16000 [BotEvent.botReply true]).pipe.speaking = false ∧
    (botRun 16000 [BotEvent.botReply true]).sessions = [SessState.Playing] ∧
    (botRun 16000 [BotEvent.botReply true,
      BotEvent.frame [1] 1]).pipe.speaking = true ∧
    (botRun 16000 [BotEvent.botReply true,
      BotEvent.frame [1] 1]).sessions = [SessState.Playing] := by
  refine ⟨rfl, rfl, ?_, rfl⟩
  show (processFrame 16000 initialState [1] 1).speaking = true
  rw [processFrame_voiced 16000 initialState 1 isVoiced_one]

/-- C8 (amended: no barge-in exists in the source; an audio element's state
is unaffected by frame processing — speech detection included — and by the
lifecycle buttons, and it reaches Ended only through its own natural end):
under any event sequence free of natural-end events, every already-created
session keeps its state. -/
theorem playback_unaffected (srcRate : ℕ) (events : List BotEvent)
    (s : BotState) (k : ℕ) (hk : k < s.sessions.length)
    (hne : ∀ e ∈ events, isAudioEnded e = false) :
    (events.foldl (botStep srcRate) s).sessions.getD k SessState.Ended
      = s.sessions.getD k SessState.Ended := by
  induction events generalizing s with
  | nil => rfl
  | cons e t ih =>
    have hne' : ∀ x ∈ t, isAudioEnded x = false :=
      fun x hx => hne x (List.mem_cons_of_mem e hx)
    cases e with
    | frame inBuf now =>
      rw [List.foldl_cons]
      exact ih ⟨processFrame srcRate s.pipe inBuf now, s.sessions⟩ hk hne'
    | startRec =>
      rw [List.foldl_cons]
      exact ih ⟨startRecording s.pipe, s.sessions⟩ hk hne'
    | stopRec =>
      rw [List.foldl_cons]
      exact ih ⟨stopRecording s.pipe, s.sessions⟩ hk hne'
    | botReply withSound =>
      rw [List.foldl_cons]
      cases withSound with
      | false => exact ih s hk hne'
      | true =>
        have h1 := ih ⟨s.pipe, s.sessions ++ [SessState.Playing]⟩
          (by simp; omega) hne'
        rw [show botStep srcRate s (BotEvent.botReply true)
            = ⟨s.pipe, s.sessions ++ [SessState.Playing]⟩ from rfl]
        rw [h1]
        exact List.getD_append _ _ _ _ hk
    | audioEnded i =>
      have := hne (BotEvent.audioEnded i) (List.mem_cons_self _ _)
      simp [isAudioEnded] at this

/-- Witness for `playback_unaffected`: one Playing session survives a voiced
frame untouched. -/
theorem playback_unaffected_witness :
    (List.foldl (botStep 16000) ⟨initialState, [SessState.Playing]⟩
        [BotEvent.frame [1] 1]).sessions.getD 0 SessState.Ended
      = (BotState.mk initialState
          [SessState.Playing]).sessions.getD 0 SessState.Ended :=
  playback_unaffected 16000 [BotEvent.frame [1] 1]
    ⟨initialState, [SessState.Playing]⟩ 0 (by simp)
    (by
      intro e he
      simp only [List.mem_cons, List.not_mem_nil, or_false] at he
      subst he
      rfl)

/-! ### Claim C5 -/

/-- Output count of the decimating branch: `floor(length / ratio)`. -/
def dsOutLen (len srcRate outRate : ℕ) : ℕ :=
  (⌊(len : ℚ) / ((srcRate : ℚ) / (outRate : ℚ))⌋).toNat

/-- Block start for output index `i`: `floor(i * ratio)`. -/
def dsStart (srcRate outRate i : ℕ) : ℕ :=
  (⌊(i : ℚ) * ((srcRate : ℚ) / (outRate : ℚ))⌋).toNat

/-- Block end for output index `i`: `floor((i+1) * ratio)`. -/
def dsStop (srcRate outRate i : ℕ) : ℕ :=
  (⌊((i : ℚ) + 1) * ((srcRate : ℚ) / (outRate : ℚ))⌋).toNat

/-- Arithmetic mean of `buffer[a..b)` — the reference value the spec (§4.1)
assigns to output sample `i`, with `a = floor(i*ratio)` and
`b = floor((i+1)*ratio)`, not clipped to the buffer. -/
def rangeMean (buffer : List ℚ) (a b : ℕ) : ℚ :=
  ((List.range' a (b - a)).foldl (fun s j => s + buffer.getD j 0) 0) /
    ((b - a : ℕ) : ℚ)

lemma downsampleFloat_getD (buffer : List ℚ) (srcRate outRate i : ℕ)
    (hne : ¬ outRate = srcRate)
    (hi : i < dsOutLen buffer.length srcRate outRate) :
    (downsampleFloat buffer srcRate outRate).getD i 0
      = (let first := dsStart srcRate outRate i
         let stop := dsStop srcRate outRate i
         let js := (List.range' first (stop - first)).filter
           fun j => decide (j < buffer.length)
         if 0 < js.length then
           (js.foldl (fun s j => s + buffer.getD j 0) 0) / (js.length : ℚ)
         else buffer.getD first 0) := by
  unfold downsampleFloat dsOutLen dsStart dsStop at *
  rw [if_neg hne]
  rw [List.getD_eq_getElem _ _ (by simpa using hi)]
  rw [List.getElem_map, List.getElem_range]

/-- C5 (confirmed): for `outRate < srcRate`, the resampler produces
`floor(length/ratio)` samples and output sample `i` is the arithmetic mean of
the input samples with indices in `[floor(i*ratio), floor((i+1)*ratio))`;
that index block is always non-empty and in bounds (so the code's in-bounds
clipping and its nearest-sample/zero fallback never alter the value). -/
theorem downsample_is_block_mean (buffer : List ℚ) (srcRate outRate : ℕ)
    (hq : 0 < outRate) (hlt : outRate < srcRate) :
    (downsampleFloat buffer srcRate outRate).length
      = dsOutLen buffer.length srcRate outRate ∧
    ∀ i : ℕ, i < dsOutLen buffer.length srcRate outRate →
      dsStart srcRate outRate i < dsStop srcRate outRate i ∧
      dsStop srcRate outRate i ≤ buffer.length ∧
      (downsampleFloat buffer srcRate outRate).getD i 0
        = rangeMean buffer (dsStart srcRate outRate i)
            (dsStop srcRate outRate i) := by
  have hne : ¬ outRate = srcRate := Nat.ne_of_lt hlt
  have hq0 : (0 : ℚ) < (outRate : ℚ) := by exact_mod_cast hq
  have hr1 : 1 < (srcRate : ℚ) / (outRate : ℚ) :=
    (one_lt_div hq0).mpr (by exact_mod_cast hlt)
  have hrpos : 0 < (srcRate : ℚ) / (outRate : ℚ) := lt_trans one_pos hr1
  constructor
  · unfold downsampleFloat
    rw [if_neg hne]
    simp only [List.length_map, List.length_range]
    rfl
  · intro i hi
    have f2 : 0 ≤ ⌊(i : ℚ) * ((srcRate : ℚ) / (outRate : ℚ))⌋ :=
      Int.floor_nonneg.mpr (mul_nonneg (Nat.cast_nonneg i) hrpos.le)
    have hfl : 0 ≤ ⌊(buffer.length : ℚ) / ((srcRate : ℚ) / (outRate : ℚ))⌋ :=
      Int.floor_nonneg.mpr (div_nonneg (Nat.cast_nonneg _) hrpos.le)
    have g1 : (i : ℤ) + 1
        ≤ ⌊(buffer.length : ℚ) / ((srcRate : ℚ) / (outRate : ℚ))⌋ := by
      unfold dsOutLen at hi
      omega
    have g2 : (i : ℚ) + 1
        ≤ (buffer.length : ℚ) / ((srcRate : ℚ) / (outRate : ℚ)) := by
      have h3 := Int.le_floor.mp g1
      push_cast at h3
      linarith
    have f3 : ((i : ℚ) + 1) * ((srcRate : ℚ) / (outRate : ℚ))
        ≤ (buffer.length : ℚ) := (le_div_iff₀ hrpos).mp g2
    have f4 : ⌊((i : ℚ) + 1) * ((srcRate : ℚ) / (outRate : ℚ))⌋
        ≤ (buffer.length : ℤ) := by
      have h4 := Int.floor_le_floor f3
      rwa [Int.floor_natCast] at h4
    have hb_le : dsStop srcRate outRate i ≤ buffer.length := by
      unfold dsStop
      omega
    have f5 : ⌊(i : ℚ) * ((srcRate : ℚ) / (outRate : ℚ))⌋
        < ⌊((i : ℚ) + 1) * ((srcRate : ℚ) / (outRate : ℚ))⌋ := by
      have hstep : (i : ℚ) * ((srcRate : ℚ) / (outRate : ℚ)) + 1
          ≤ ((i : ℚ) + 1) * ((srcRate : ℚ) / (outRate : ℚ)) := by
        have hexp : ((i : ℚ) + 1) * ((srcRate : ℚ) / (outRate : ℚ))
            = (i : ℚ) * ((srcRate : ℚ) / (outRate : ℚ))
              + (srcRate : ℚ) / (outRate : ℚ) := by ring
        linarith
      calc ⌊(i : ℚ) * ((srcRate : ℚ) / (outRate : ℚ))⌋
          < ⌊(i : ℚ) * ((srcRate : ℚ) / (outRate : ℚ))⌋ + 1 := lt_add_one _
        _ = ⌊(i : ℚ) * ((srcRate : ℚ) / (outRate : ℚ)) + 1⌋ :=
            (Int.floor_add_one _).symm
        _ ≤ ⌊((i : ℚ) + 1) * ((srcRate : ℚ) / (outRate : ℚ))⌋ :=
            Int.floor_le_floor hstep
    have hab : dsStart srcRate outRate i < dsStop srcRate outRate i := by
      unfold dsStart dsStop
      omega
    refine ⟨hab, hb_le, ?_⟩
    rw [downsampleFloat_getD buffer srcRate outRate i hne hi]
    have hfilter : (List.range' (dsStart srcRate outRate i)
          (dsStop srcRate outRate i - dsStart srcRate outRate i)).filter
          (fun j => decide (j < buffer.length))
        = List.range' (dsStart srcRate outRate i)
            (dsStop srcRate outRate i - dsStart srcRate outRate i) := by
      apply List.filter_eq_self.mpr
      intro j hj
      rw [List.mem_range'_1] at hj
      have hj2 : j < dsStop srcRate outRate i := by omega
      exact decide_eq_true (by omega : j < buffer.length)
    simp only [hfilter, List.length_range']
    rw [if_pos (by omega : 0 < dsStop srcRate outRate i - dsStart srcRate outRate i)]
    rfl

/-- Witness for `downsample_is_block_mean`: three input samples at ratio 3
averaged into the single output sample. -/
theorem downsample_is_block_mean_witness :
    dsStart 3 1 0 < dsStop 3 1 0 ∧
    dsStop 3 1 0 ≤ ([(1 : ℚ), 2, 3]).length ∧
    (downsampleFloat [(1 : ℚ), 2, 3] 3 1).getD 0 0
      = rangeMean [(1 : ℚ), 2, 3] (dsStart 3 1 0) (dsStop 3 1 0) :=
  (downsample_is_block_mean [(1 : ℚ), 2, 3] 3 1 (by norm_num)
    (by norm_num)).2 0 (by norm_num [dsOutLen])

end VoiceBot
